import Mathlib

/-!
# Verification of the companies-news monitor bot (`src/bot.py`)

Shallow embedding of the core of `bot.py`: the news-item construction of
`fetch_serpapi_news`, the freshness/dedup filter of `monitor_chat`, the
quote provider chain `get_stock_price`, the provider adapters
`fetch_alpha_global_quote` / `fetch_finnhub_quote`, the batcher
`split_message`, the `short` utility and the registry operations
`unwatch_company` / `unwatch_ticker`.

Modelling conventions:
* machine floats (prices, percent changes, timestamps) are embedded as `ℚ`;
  timestamps are seconds in the single configured time zone;
* `None`-able Python values are `Option`s; a caught Python exception is the
  `none` / "no data" outcome, mirroring each `try/except` of the source;
* purely presentational number rendering (`f"{x:.2f}"`, `strftime`) is taken
  as an abstract rendering function argument where a claim does not depend
  on it;
* Python `set`s are `Finset String`.
-/

namespace Bot

/-- Python `f"{x}"` on an optional string: `None` renders as `"None"`,
a plain string renders as itself. -/
def pyOptRepr : Option String → String
  | none => "None"
  | some s => s

/-- Python truthiness of an optional string (`if not KEY`): an unset or
empty credential is falsy. -/
def pyTruthyStr : Option String → Bool
  | none => false
  | some s => !s.isEmpty

/-- Python `s.strip()`: drop leading and trailing whitespace. -/
def pyStrip (s : String) : String :=
  ⟨((s.data.dropWhile Char.isWhitespace).reverse.dropWhile Char.isWhitespace).reverse⟩

/-- Python `s.upper()` (on the ASCII range the claims exercise). -/
def pyUpper (s : String) : String :=
  ⟨s.data.map Char.toUpper⟩

/-- Python slice `s[:k]` for an `Int` bound `k`: a nonnegative `k` keeps the
first `k` characters, a negative `k` drops `-k` characters from the end. -/
def pySliceTo (s : String) (k : ℤ) : String :=
  if 0 ≤ k then ⟨s.data.take k.toNat⟩ else ⟨s.data.take (s.length - (-k).toNat)⟩

/-- Embedding of `short` (bot.py:79-81): strip the input, return it unchanged
when it fits into `maxlen`, otherwise cut to `maxlen - 1` characters and
append the one-character ellipsis `…`. -/
def short (src : String) (maxlen : Nat := 64) : String :=
  let s := pyStrip src
  if s.length ≤ maxlen then s else pySliceTo s ((maxlen : ℤ) - 1) ++ "…"

/-!
## News source adapter (`fetch_serpapi_news`, bot.py:85-114)
-/

/-- One normalized news item as built by `fetch_serpapi_news` (bot.py:107-113).
`dt` is the parsed timestamp (seconds), absent when parsing failed. -/
structure NewsItem where
  id : String
  title : String
  url : Option String
  source : String
  dt : Option ℚ
deriving DecidableEq, Repr

/-- One raw SerpAPI result as read by `fetch_serpapi_news` (bot.py:99-104):
the optional raw fields `title`, `link`, `source.name` and `date`. -/
structure RawNews where
  title : Option String
  link : Option String
  sourceName : Option String
  date : Option String
deriving DecidableEq, Repr

/-- The news id of bot.py:106: `f"{title}|{link}|{date_raw}"` over the
normalized title, the raw link and the raw date string. -/
def newsId (title : String) (link : Option String) (dateRaw : Option String) : String :=
  title ++ "|" ++ pyOptRepr link ++ "|" ++ pyOptRepr dateRaw

/-- Embedding of the item construction in `fetch_serpapi_news`
(bot.py:99-113), parametrized by the timestamp parser
(`parse_relative_date`), whose behaviour the id must not depend on. -/
def mkNewsItem (parseDate : Option String → Option ℚ) (v : RawNews) : NewsItem :=
  let title := pyStrip (v.title.getD "")
  { id := newsId title v.link v.date
    title := title
    url := v.link
    source := v.sourceName.getD ""
    dt := parseDate v.date }

/-- Embedding of `fetch_serpapi_news`'s result list (bot.py:98-114): the raw
results are capped to `num` and normalized one by one. -/
def fetch_serpapi_news (parseDate : Option String → Option ℚ)
    (raws : List RawNews) (num : Nat := 6) : List NewsItem :=
  (raws.take num).map (mkNewsItem parseDate)

/-!
## Quote provider chain (`get_stock_price`, bot.py:279-306)

Each adapter's outcome is a pair of optional numeric fields
(price, percent change); the Yahoo adapter additionally carries a session
label. Numeric values are kept generic in `α`.
-/

/-- Embedding of `get_stock_price` (bot.py:279-306) over the outcomes of the
four adapters: Yahoo is consulted only when `RAPIDAPI_KEY` is set, and each
adapter's result is returned exactly when both its price and its percent
change are present. -/
def get_stock_price {α : Type} (rapidKey : Bool)
    (yahoo : Option α × Option α × String)
    (alpha finnhub twelvedata : Option α × Option α) :
    Option α × Option α × String :=
  if rapidKey = true ∧ yahoo.1.isSome = true ∧ yahoo.2.1.isSome = true then
    yahoo
  else if alpha.1.isSome = true ∧ alpha.2.isSome = true then
    (alpha.1, alpha.2, "AlphaVantage")
  else if finnhub.1.isSome = true ∧ finnhub.2.isSome = true then
    (finnhub.1, finnhub.2, "Finnhub")
  else if twelvedata.1.isSome = true ∧ twelvedata.2.isSome = true then
    (twelvedata.1, twelvedata.2, "TwelveData")
  else
    (none, none, "none")

/-- The adapter outcomes in the chain's fixed priority order, labelled as the
chain labels them; Yahoo is part of the chain only when `RAPIDAPI_KEY` is
set. Follows the spec's wording of §4.1. -/
def chainCandidates {α : Type} (rapidKey : Bool)
    (yahoo : Option α × Option α × String)
    (alpha finnhub twelvedata : Option α × Option α) :
    List (Option α × Option α × String) :=
  (if rapidKey then [yahoo] else [])
    ++ [(alpha.1, alpha.2, "AlphaVantage"),
        (finnhub.1, finnhub.2, "Finnhub"),
        (twelvedata.1, twelvedata.2, "TwelveData")]

/-- The spec's description of the chain (§4.1): the first candidate carrying
both a price and a percent change, otherwise "no data". Follows the spec's
wording, to be compared with `get_stock_price`. -/
def firstCompleteQuote {α : Type} (l : List (Option α × Option α × String)) :
    Option α × Option α × String :=
  match l.find? (fun q => q.1.isSome && q.2.1.isSome) with
  | some q => q
  | none => (none, none, "none")

/-!
## Provider adapters (`fetch_alpha_global_quote` bot.py:119-143,
`fetch_finnhub_quote` bot.py:146-164)

An HTTP interaction is either a raised connection error, or a response with
a status code and an optional decoded body (`none` = `r.json()` raised).
Numeric parsing (`float(...)`) is an abstract `String → Option α`; `none`
is a raised `ValueError`, caught by the adapter's `except`.
-/

/-- Outcome of one `session.get(...)` call. -/
inductive HttpOutcome (β : Type) where
  | netError
  | resp (status : Nat) (body : Option β)
deriving DecidableEq, Repr

/-- Decoded Alpha Vantage payload: whether one of the soft-quota keys
`Note` / `Information` / `Error Message` is present, and the optional raw
fields `"Global Quote"."05. price"` and `"Global Quote"."10. change percent"`
(absent when `Global Quote` itself is missing). -/
structure AlphaBody where
  note : Bool
  price : Option String
  chgPct : Option String
deriving DecidableEq, Repr

/-- Decoded Finnhub payload: the optional raw fields `c` and `dp`. -/
structure FinnhubBody where
  c : Option String
  dp : Option String
deriving DecidableEq, Repr

/-- Python `s.rstrip("%")`. -/
def rstripPercent (s : String) : String :=
  ⟨(s.data.reverse.dropWhile (fun ch => ch = '%')).reverse⟩

/-- Embedding of `fetch_alpha_global_quote` (bot.py:119-143). The second
component records whether the HTTP request was issued: the source reaches
`session.get` exactly when the credential is truthy. A missing credential,
a 403/429, any HTTP error status, a decode failure, a soft-quota key or an
unparsable numeric field all yield `(none, none)`. -/
def fetch_alpha_global_quote {α : Type} (pfloat : String → Option α)
    (key : Option String) (out : HttpOutcome AlphaBody) :
    (Option α × Option α) × Bool :=
  if pyTruthyStr key = false then ((none, none), false)
  else
    let result :=
      match out with
      | .netError => (none, none)
      | .resp status body =>
        if status = 403 ∨ status = 429 then (none, none)
        else if 400 ≤ status then (none, none)
        else
          match body with
          | none => (none, none)
          | some data =>
            if data.note then (none, none)
            else
              match data.price, data.chgPct with
              | some p, some c =>
                match pfloat p, pfloat (rstripPercent c) with
                | some pv, some cv => (some pv, some cv)
                | _, _ => (none, none)
              | _, _ => (none, none)
    (result, true)

/-- Embedding of `fetch_finnhub_quote` (bot.py:146-164), same conventions as
`fetch_alpha_global_quote`; Finnhub short-circuits only on status 429 before
`raise_for_status`. -/
def fetch_finnhub_quote {α : Type} (pfloat : String → Option α)
    (key : Option String) (out : HttpOutcome FinnhubBody) :
    (Option α × Option α) × Bool :=
  if pyTruthyStr key = false then ((none, none), false)
  else
    let result :=
      match out with
      | .netError => (none, none)
      | .resp status body =>
        if status = 429 then (none, none)
        else if 400 ≤ status then (none, none)
        else
          match body with
          | none => (none, none)
          | some data =>
            match data.c, data.dp with
            | some p, some c =>
              match pfloat p, pfloat c with
              | some pv, some cv => (some pv, some cv)
              | _, _ => (none, none)
            | _, _ => (none, none)
    (result, true)

/-!
## Subscriber state and registry operations (`ChatState` bot.py:36-45,
`unwatch_company` bot.py:418-430, `unwatch_ticker` bot.py:445-457)
-/

/-- Embedding of the `ChatState` dataclass (bot.py:36-45). The `task` handle
is opaque (`Option Unit`): only its presence is observable here. -/
structure ChatState where
  companies : Finset String
  tickers : Finset String
  news_seen_ids : Finset String
  interval_min : ℤ
  price_threshold_pct : ℚ
  running : Bool
  task : Option Unit
  debug : Bool
deriving DecidableEq

/-- The dataclass defaults of bot.py:36-45. -/
def ChatState.init : ChatState :=
  { companies := ∅, tickers := ∅, news_seen_ids := ∅, interval_min := 10
    price_threshold_pct := 2, running := false, task := none, debug := false }

/-- Embedding of `unwatch_company` (bot.py:418-430) on the subscriber state:
strip the argument, remove it from `companies` when present, otherwise leave
the state alone (only the reply message differs). -/
def unwatch_company (st : ChatState) (arg : String) : ChatState :=
  let name := pyStrip arg
  if name ∈ st.companies then { st with companies := st.companies.erase name }
  else st

/-- Embedding of `unwatch_ticker` (bot.py:445-457) on the subscriber state:
strip and uppercase the argument, remove it from `tickers` when present,
otherwise leave the state alone. -/
def unwatch_ticker (st : ChatState) (arg : String) : ChatState :=
  let t := pyUpper (pyStrip arg)
  if t ∈ st.tickers then { st with tickers := st.tickers.erase t }
  else st

/-- A concrete subscriber state watching one company and one ticker, used as
a test fixture. -/
def demoState : ChatState :=
  { ChatState.init with companies := {"Acme"}, tickers := {"NVDA"} }

/-!
## Freshness/dedup filter and the news part of a monitor cycle
(`monitor_chat`, bot.py:309-336)
-/

/-- The staleness guard of bot.py:325: an item is stale when it has a parsed
timestamp and its age relative to the cycle start exceeds
`interval_min * 60 + 120` seconds (a datetime is always truthy). -/
def isStale (intervalMin : ℤ) (startCycle : ℚ) (n : NewsItem) : Bool :=
  match n.dt with
  | none => false
  | some d => decide (startCycle - d > ((intervalMin * 60 + 120 : ℤ) : ℚ))

/-- One iteration of the filter loop of bot.py:321-328: skip an already seen
item, skip a stale item (without marking it seen), otherwise append it to
`fresh` and add its id to the seen set. -/
def newsFilterStep (intervalMin : ℤ) (startCycle : ℚ)
    (acc : List NewsItem × Finset String) (n : NewsItem) :
    List NewsItem × Finset String :=
  if n.id ∈ acc.2 then acc
  else if isStale intervalMin startCycle n then acc
  else (acc.1 ++ [n], insert n.id acc.2)

/-- The filter loop of bot.py:320-328 over one fetched news list: returns the
fresh items in order together with the updated seen set. -/
def filterNews (seen : Finset String) (intervalMin : ℤ) (startCycle : ℚ)
    (news : List NewsItem) : List NewsItem × Finset String :=
  news.foldl (newsFilterStep intervalMin startCycle) ([], seen)

/-- Processing of one company inside a cycle (bot.py:317-336): a fetch that
raises (`fetch = none`) is skipped; otherwise the fetched items are filtered
against the running seen set and the surviving `(company, item)` pairs are
appended to the cycle's report. -/
def companyStep (fetch : String → Option (List NewsItem)) (intervalMin : ℤ)
    (startCycle : ℚ) (acc : List (String × NewsItem) × Finset String)
    (company : String) : List (String × NewsItem) × Finset String :=
  match fetch company with
  | none => acc
  | some news =>
    let fs := filterNews acc.2 intervalMin startCycle news
    (acc.1 ++ fs.1.map (fun n => (company, n)), fs.2)

/-- The news half of one monitor cycle (bot.py:317-336): iterate the watched
companies in sorted order, threading the seen set through `companyStep`. -/
def runNewsCycle (fetch : String → Option (List NewsItem)) (startCycle : ℚ)
    (st : ChatState) : List (String × NewsItem) × ChatState :=
  let r := (st.companies.sort (· ≤ ·)).foldl
    (companyStep fetch st.interval_min startCycle) ([], st.news_seen_ids)
  (r.1, { st with news_seen_ids := r.2 })

/-- One monitor cycle appended to a run of cycles. -/
def cycleStep (acc : List (List (String × NewsItem)) × ChatState)
    (inp : (String → Option (List NewsItem)) × ℚ) :
    List (List (String × NewsItem)) × ChatState :=
  let r := runNewsCycle inp.1 inp.2 acc.2
  (acc.1 ++ [r.1], r.2)

/-- Several consecutive monitor cycles: each cycle has its own fetch outcome
and start time; the reported pairs of every cycle are collected in order. -/
def runCycles (st : ChatState)
    (inputs : List ((String → Option (List NewsItem)) × ℚ)) :
    List (List (String × NewsItem)) × ChatState :=
  inputs.foldl cycleStep ([], st)

/-- All news-item ids reported across a run of `runCycles`. -/
def reportedIds (outs : List (List (String × NewsItem))) : List String :=
  outs.flatten.map (fun p => p.2.id)

/-!
## Price fragment of a monitor cycle (bot.py:348-357)
-/

/-- The arrow glyph of bot.py:352, chosen by the sign of the change. -/
def arrowFor (chg : ℚ) : String :=
  if chg > 0 then "📈" else if chg < 0 then "📉" else "➡️"

/-- The debug tag of bot.py:353: present exactly when debug mode is on and
the absolute change is strictly below the threshold. -/
def dbgSuffix (debug : Bool) (chg th : ℚ) : String :=
  if debug = true ∧ |chg| < th then " (debug)" else ""

/-- The threshold decision and fragment of bot.py:351-357 for one fetched
chain quote (price and change both present). `fmtP`/`fmtC` abstract the
`:.2f` / `:+.2f` renderings, on which no claim depends. -/
def tickerMsg (fmtP fmtC : ℚ → String) (th : ℚ) (debug : Bool)
    (t : String) (price chg : ℚ) (provider : String) : Option String :=
  if |chg| ≥ th ∨ debug = true then
    some (arrowFor chg ++ " " ++ t ++ ": " ++ fmtP price ++ " USD (" ++ fmtC chg
      ++ "%) • " ++ provider ++ dbgSuffix debug chg th
      ++ "\nhttps://finance.yahoo.com/quote/" ++ t)
  else none

/-!
## Notification batcher (`split_message`, bot.py:371-384)
-/

/-- C7: the computed news id is a function of exactly the raw title, link and
date string: two raw items agreeing on those three fields get the same id
under any two timestamp parsers. -/
theorem newsId_raw_fields_only (parse₁ parse₂ : Option String → Option ℚ)
    (v₁ v₂ : RawNews) (ht : v₁.title = v₂.title) (hl : v₁.link = v₂.link)
    (hd : v₁.date = v₂.date) :
    (mkNewsItem parse₁ v₁).id = (mkNewsItem parse₂ v₂).id := by
  simp [mkNewsItem, newsId, ht, hl, hd]

/-- Witness for C7: two concrete raw items with equal raw fields but
disagreeing parsers produce the same id. -/
theorem newsId_raw_fields_only_witness :
    (⟨some " T ", some "u", some "s", some "1 hour ago"⟩ : RawNews).title
        = (⟨some " T ", some "u", some "m", some "1 hour ago"⟩ : RawNews).title
    ∧ (mkNewsItem (fun _ => none) ⟨some " T ", some "u", some "s", some "1 hour ago"⟩).id
        = (mkNewsItem (fun _ => some 0) ⟨some " T ", some "u", some "m", some "1 hour ago"⟩).id := by
  refine ⟨rfl, ?_⟩
  exact newsId_raw_fields_only (fun _ => none) (fun _ => some 0)
    ⟨some " T ", some "u", some "s", some "1 hour ago"⟩
    ⟨some " T ", some "u", some "m", some "1 hour ago"⟩ rfl rfl rfl

/-- C9: for positive `maxlen`, `short` returns at most `maxlen` characters,
and returns the stripped input unchanged when it already fits. -/
theorem short_length_le (src : String) (maxlen : Nat) (hpos : 1 ≤ maxlen) :
    (short src maxlen).length ≤ maxlen
    ∧ ((pyStrip src).length ≤ maxlen → short src maxlen = pyStrip src) := by
  constructor
  · unfold short
    by_cases hfit : (pyStrip src).length ≤ maxlen
    · simp [hfit]
    · simp only [hfit, if_false]
      have hdata : (pyStrip src).length = (pyStrip src).data.length := rfl
      have hk : (0 : ℤ) ≤ (maxlen : ℤ) - 1 := by omega
      have hlen : (pySliceTo (pyStrip src) ((maxlen : ℤ) - 1)).length = maxlen - 1 := by
        simp only [pySliceTo, hk, if_true]
        show (List.take ((maxlen : ℤ) - 1).toNat (pyStrip src).data).length = maxlen - 1
        rw [List.length_take]
        have : ((maxlen : ℤ) - 1).toNat = maxlen - 1 := by omega
        rw [this]
        have : maxlen - 1 ≤ (pyStrip src).length := by
          push_neg at hfit
          omega
        omega
      rw [String.length_append, hlen]
      have : ("…" : String).length = 1 := rfl
      omega
  · intro hfit
    simp [short, hfit]

/-- Witness for C9: `short "  hi  " 3` fits and is the stripped input. -/
theorem short_length_le_witness :
    1 ≤ 3 ∧ ((short "  hi  " 3).length ≤ 3
      ∧ ((pyStrip "  hi  ").length ≤ 3 → short "  hi  " 3 = pyStrip "  hi  ")) :=
  ⟨by decide, short_length_le "  hi  " 3 (by decide)⟩

/-- C3: the quote chain returns the first adapter result, in priority order,
that carries both a numeric price and a numeric percent change; a partial
result is treated as absent and fields are never merged across adapters. -/
theorem get_stock_price_eq_firstComplete {α : Type} (rapidKey : Bool)
    (yahoo : Option α × Option α × String)
    (alpha finnhub twelvedata : Option α × Option α) :
    get_stock_price rapidKey yahoo alpha finnhub twelvedata
      = firstCompleteQuote (chainCandidates rapidKey yahoo alpha finnhub twelvedata) := by
  obtain ⟨yp, yc, yl⟩ := yahoo
  obtain ⟨ap, ac⟩ := alpha
  obtain ⟨fp, fc⟩ := finnhub
  obtain ⟨tp, tc⟩ := twelvedata
  cases rapidKey <;> cases yp <;> cases yc <;> cases ap <;> cases ac <;>
    cases fp <;> cases fc <;> cases tp <;> cases tc <;>
    simp [get_stock_price, chainCandidates, firstCompleteQuote, List.find?]

/-- C8: each quote adapter short-circuits to "no data" without issuing the
HTTP request when its credential is missing or empty, and returns "no data"
rather than failing on a connection error, a rate-limit status (403/429 for
Alpha Vantage, 429 for Finnhub), any HTTP error status, an undecodable
body, a soft-quota key inside a 200 response, and an unparsable numeric
field. -/
theorem adapters_total_and_gated {α : Type} :
    (∀ (pf : String → Option α) key out, pyTruthyStr key = false →
      fetch_alpha_global_quote pf key out = ((none, none), false))
    ∧ (∀ (pf : String → Option α) key out, pyTruthyStr key = false →
      fetch_finnhub_quote pf key out = ((none, none), false))
    ∧ (∀ (pf : String → Option α) key,
      (fetch_alpha_global_quote pf key .netError).1 = (none, none))
    ∧ (∀ (pf : String → Option α) key,
      (fetch_finnhub_quote pf key .netError).1 = (none, none))
    ∧ (∀ (pf : String → Option α) key s b, s = 403 ∨ s = 429 →
      (fetch_alpha_global_quote pf key (.resp s b)).1 = (none, none))
    ∧ (∀ (pf : String → Option α) key b,
      (fetch_finnhub_quote pf key (.resp 429 b)).1 = (none, none))
    ∧ (∀ (pf : String → Option α) key s b, 400 ≤ s →
      (fetch_alpha_global_quote pf key (.resp s b)).1 = (none, none))
    ∧ (∀ (pf : String → Option α) key s b, 400 ≤ s →
      (fetch_finnhub_quote pf key (.resp s b)).1 = (none, none))
    ∧ (∀ (pf : String → Option α) key s,
      (fetch_alpha_global_quote pf key (.resp s none)).1 = (none, none))
    ∧ (∀ (pf : String → Option α) key s,
      (fetch_finnhub_quote pf key (.resp s none)).1 = (none, none))
    ∧ (∀ (pf : String → Option α) key s p c,
      (fetch_alpha_global_quote pf key (.resp s (some ⟨true, p, c⟩))).1 = (none, none))
    ∧ (∀ (pf : String → Option α) key s p c,
        pf p = none ∨ pf (rstripPercent c) = none →
      (fetch_alpha_global_quote pf key (.resp s (some ⟨false, some p, some c⟩))).1
        = (none, none))
    ∧ (∀ (pf : String → Option α) key s p c, pf p = none ∨ pf c = none →
      (fetch_finnhub_quote pf key (.resp s (some ⟨some p, some c⟩))).1 = (none, none)) := by
  refine ⟨?_, ?_, ?_, ?_, ?_, ?_, ?_, ?_, ?_, ?_, ?_, ?_, ?_⟩
  · intro pf key out hk
    simp [fetch_alpha_global_quote, hk]
  · intro pf key out hk
    simp [fetch_finnhub_quote, hk]
  · intro pf key
    cases hk : pyTruthyStr key <;> simp [fetch_alpha_global_quote, hk]
  · intro pf key
    cases hk : pyTruthyStr key <;> simp [fetch_finnhub_quote, hk]
  · intro pf key s b h
    cases hk : pyTruthyStr key <;> simp [fetch_alpha_global_quote, hk, h]
  · intro pf key b
    cases hk : pyTruthyStr key <;> simp [fetch_finnhub_quote, hk]
  · intro pf key s b h
    have h43 : ¬(s = 403 ∨ s = 429) ∨ (s = 403 ∨ s = 429) := by tauto
    cases hk : pyTruthyStr key <;>
      rcases h43 with h43 | h43 <;>
        simp [fetch_alpha_global_quote, hk, h43, h]
  · intro pf key s b h
    by_cases h29 : s = 429 <;>
      cases hk : pyTruthyStr key <;>
        simp [fetch_finnhub_quote, hk, h29, h]
  · intro pf key s
    cases hk : pyTruthyStr key <;> [skip; by_cases h43 : s = 403 ∨ s = 429] <;>
      [skip; skip; by_cases h40 : 400 ≤ s] <;>
        simp_all [fetch_alpha_global_quote]
  · intro pf key s
    cases hk : pyTruthyStr key <;> [skip; by_cases h29 : s = 429] <;>
      [skip; skip; by_cases h40 : 400 ≤ s] <;>
        simp_all [fetch_finnhub_quote]
  · intro pf key s p c
    cases hk : pyTruthyStr key <;> [skip; by_cases h43 : s = 403 ∨ s = 429] <;>
      [skip; skip; by_cases h40 : 400 ≤ s] <;>
        simp_all [fetch_alpha_global_quote]
  · intro pf key s p c h
    cases hk : pyTruthyStr key <;> [skip; by_cases h43 : s = 403 ∨ s = 429] <;>
      [skip; skip; by_cases h40 : 400 ≤ s] <;>
        rcases h with h | h <;>
          cases h1 : pf p <;> cases h2 : pf (rstripPercent c) <;>
            simp_all [fetch_alpha_global_quote]
  · intro pf key s p c h
    cases hk : pyTruthyStr key <;> [skip; by_cases h29 : s = 429] <;>
      [skip; skip; by_cases h40 : 400 ≤ s] <;>
        rcases h with h | h <;>
          cases h1 : pf p <;> cases h2 : pf c <;>
            simp_all [fetch_finnhub_quote]

/-- Witness for C8: the gating and "no data" outcomes at concrete inputs. -/
theorem adapters_total_and_gated_witness :
    pyTruthyStr (some "") = false
    ∧ fetch_alpha_global_quote (fun _ => (none : Option ℚ)) (some "") .netError
        = ((none, none), false)
    ∧ fetch_finnhub_quote (fun _ => (none : Option ℚ)) none .netError
        = ((none, none), false)
    ∧ ((403 : Nat) = 403 ∨ (403 : Nat) = 429)
    ∧ (fetch_alpha_global_quote (fun _ => (none : Option ℚ)) (some "k")
        (.resp 403 none)).1 = (none, none)
    ∧ (400 : Nat) ≤ 500
    ∧ (fetch_finnhub_quote (fun _ => (none : Option ℚ)) (some "k")
        (.resp 500 none)).1 = (none, none)
    ∧ (fetch_alpha_global_quote (fun _ => (none : Option ℚ)) (some "k")
        (.resp 200 (some ⟨true, some "1", some "2%"⟩))).1 = (none, none)
    ∧ ((fun _ => (none : Option ℚ)) "1" = none ∨
        (fun _ => (none : Option ℚ)) (rstripPercent "2%") = none)
    ∧ (fetch_alpha_global_quote (fun _ => (none : Option ℚ)) (some "k")
        (.resp 200 (some ⟨false, some "1", some "2%"⟩))).1 = (none, none) := by
  refine ⟨rfl, ?_, ?_, Or.inl rfl, ?_, by omega, ?_, ?_, Or.inl rfl, ?_⟩
  · exact adapters_total_and_gated.1 (fun _ => (none : Option ℚ)) (some "") .netError rfl
  · exact adapters_total_and_gated.2.1 (fun _ => (none : Option ℚ)) none .netError rfl
  · exact adapters_total_and_gated.2.2.2.2.1 (fun _ => (none : Option ℚ)) (some "k")
      403 none (Or.inl rfl)
  · exact adapters_total_and_gated.2.2.2.2.2.2.2.1 (fun _ => (none : Option ℚ)) (some "k")
      500 none (by omega)
  · exact adapters_total_and_gated.2.2.2.2.2.2.2.2.2.2.1 (fun _ => (none : Option ℚ))
      (some "k") 200 (some "1") (some "2%")
  · exact adapters_total_and_gated.2.2.2.2.2.2.2.2.2.2.2.1 (fun _ => (none : Option ℚ))
      (some "k") 200 "1" "2%" (Or.inl rfl)

/-- C5: a price fragment is produced exactly when the absolute change meets
the threshold (`>=`, so equality triggers) or debug mode is on, and the
debug tag equals `" (debug)"` exactly when debug is on and the threshold
was not actually met; the produced fragment carries the tag as a segment. -/
theorem tickerMsg_threshold (fmtP fmtC : ℚ → String) (th : ℚ) (debug : Bool)
    (t : String) (price chg : ℚ) (provider : String) :
    ((tickerMsg fmtP fmtC th debug t price chg provider).isSome
      ↔ (|chg| ≥ th ∨ debug = true))
    ∧ (dbgSuffix debug chg th = " (debug)" ↔ (debug = true ∧ |chg| < th))
    ∧ (∀ s, tickerMsg fmtP fmtC th debug t price chg provider = some s →
        (dbgSuffix debug chg th).data <:+: s.data) := by
  refine ⟨?_, ?_, ?_⟩
  · by_cases h : |chg| ≥ th ∨ debug = true <;> simp [tickerMsg, h]
  · by_cases h : debug = true ∧ |chg| < th
    · simp [dbgSuffix, h]
    · simp only [dbgSuffix, if_neg h]
      constructor
      · intro he
        exact absurd he.symm (by decide)
      · intro hc
        exact absurd hc h
  · intro s hs
    by_cases h : |chg| ≥ th ∨ debug = true
    · rw [tickerMsg, if_pos h, Option.some.injEq] at hs
      refine ⟨(arrowFor chg ++ " " ++ t ++ ": " ++ fmtP price ++ " USD ("
          ++ fmtC chg ++ "%) • " ++ provider).data,
        ("\nhttps://finance.yahoo.com/quote/" ++ t).data, ?_⟩
      rw [← hs]
      simp [String.data_append]
    · rw [tickerMsg, if_neg h] at hs
      exact absurd hs (by simp)

/-- Witness for C5: a below-threshold quote in debug mode is reported with
the `" (debug)"` tag as a segment of the fragment. -/
theorem tickerMsg_threshold_witness :
    tickerMsg (fun _ => "1.00") (fun _ => "+1.00") 2 true "NVDA" 1 1 "Finnhub"
      = some "📈 NVDA: 1.00 USD (+1.00%) • Finnhub (debug)\nhttps://finance.yahoo.com/quote/NVDA"
    ∧ (dbgSuffix true 1 2).data
        <:+: ("📈 NVDA: 1.00 USD (+1.00%) • Finnhub (debug)\nhttps://finance.yahoo.com/quote/NVDA" : String).data := by
  have h : tickerMsg (fun _ => "1.00") (fun _ => "+1.00") 2 true "NVDA" 1 1 "Finnhub"
      = some "📈 NVDA: 1.00 USD (+1.00%) • Finnhub (debug)\nhttps://finance.yahoo.com/quote/NVDA" := by
    rw [tickerMsg, if_pos (Or.inr rfl)]
    norm_num [arrowFor, dbgSuffix]
    decide
  exact ⟨h, (tickerMsg_threshold (fun _ => "1.00") (fun _ => "+1.00") 2 true
    "NVDA" 1 1 "Finnhub").2.2 _ h⟩

/-- C6: an unseen item enters the fresh list exactly when it is not stale;
an item with no parsed timestamp is never stale, age exactly
`interval*60 + 120` seconds is not stale, and age `interval*60 + 121`
seconds is stale. -/
theorem freshness_boundary :
    (∀ (seen : Finset String) (I : ℤ) (s : ℚ) (n : NewsItem), n.id ∉ seen →
      (n ∈ (filterNews seen I s [n]).1 ↔ isStale I s n = false))
    ∧ (∀ (I : ℤ) (s : ℚ) (i ttl src : String) (u : Option String),
        isStale I s ⟨i, ttl, u, src, none⟩ = false)
    ∧ (∀ (I : ℤ) (s d : ℚ) (i ttl src : String) (u : Option String),
        s - d = ((I * 60 + 120 : ℤ) : ℚ) →
        isStale I s ⟨i, ttl, u, src, some d⟩ = false)
    ∧ (∀ (I : ℤ) (s d : ℚ) (i ttl src : String) (u : Option String),
        s - d = ((I * 60 + 121 : ℤ) : ℚ) →
        isStale I s ⟨i, ttl, u, src, some d⟩ = true) := by
  refine ⟨?_, ?_, ?_, ?_⟩
  · intro seen I s n h
    cases hstale : isStale I s n <;>
      simp [filterNews, newsFilterStep, h, hstale]
  · intro I s i ttl src u
    simp [isStale]
  · intro I s d i ttl src u h
    simp only [isStale, h, decide_eq_false_iff_not, not_lt, gt_iff_lt]
    exact le_refl _
  · intro I s d i ttl src u h
    simp only [isStale, h, decide_eq_true_eq, gt_iff_lt]
    push_cast
    linarith

/-- Witness for C6: with a 10-minute interval and cycle start 10000, an
unseen item of age exactly 720 seconds is fresh and accepted, and one of age
721 seconds is stale. -/
theorem freshness_boundary_witness :
    ("i" ∉ (∅ : Finset String))
    ∧ ((⟨"i", "t", some "u", "s", some 9280⟩ : NewsItem)
        ∈ (filterNews ∅ 10 10000 [⟨"i", "t", some "u", "s", some 9280⟩]).1
        ↔ isStale 10 10000 ⟨"i", "t", some "u", "s", some 9280⟩ = false)
    ∧ isStale 10 10000 ⟨"i", "t", some "u", "s", none⟩ = false
    ∧ ((10000 : ℚ) - 9280 = ((10 * 60 + 120 : ℤ) : ℚ)
        ∧ isStale 10 10000 ⟨"i", "t", some "u", "s", some 9280⟩ = false)
    ∧ ((10000 : ℚ) - 9279 = ((10 * 60 + 121 : ℤ) : ℚ)
        ∧ isStale 10 10000 ⟨"i", "t", some "u", "s", some 9279⟩ = true) := by
  refine ⟨by decide, ?_, ?_, ⟨by norm_num, ?_⟩, ⟨by norm_num, ?_⟩⟩
  · exact freshness_boundary.1 ∅ 10 10000 ⟨"i", "t", some "u", "s", some 9280⟩ (by decide)
  · exact freshness_boundary.2.1 10 10000 "i" "t" "s" (some "u")
  · exact freshness_boundary.2.2.1 10 10000 9280 "i" "t" "s" (some "u") (by norm_num)
  · exact freshness_boundary.2.2.2 10 10000 9279 "i" "t" "s" (some "u") (by norm_num)

/-- Helper: the seen set produced by the filter loop contains exactly the
previously seen ids and the ids of the non-stale processed items. -/
theorem mem_foldl_newsFilterStep (I : ℤ) (s : ℚ) (x : String) :
    ∀ (news : List NewsItem) (acc : List NewsItem × Finset String),
      (x ∈ (news.foldl (newsFilterStep I s) acc).2
        ↔ x ∈ acc.2 ∨ ∃ n ∈ news, n.id = x ∧ isStale I s n = false) := by
  intro news
  induction news with
  | nil => intro acc; simp
  | cons n rest ih =>
    intro acc
    rw [List.foldl_cons, ih]
    by_cases hmem : n.id ∈ acc.2
    · simp only [newsFilterStep, if_pos hmem, List.mem_cons]
      constructor
      · rintro (h | ⟨m, hm, he, hst⟩)
        · exact Or.inl h
        · exact Or.inr ⟨m, Or.inr hm, he, hst⟩
      · rintro (h | ⟨m, hm | hm, he, hst⟩)
        · exact Or.inl h
        · subst hm
          exact Or.inl (he ▸ hmem)
        · exact Or.inr ⟨m, hm, he, hst⟩
    · by_cases hstale : isStale I s n
      · simp only [newsFilterStep, if_neg hmem, if_pos hstale, List.mem_cons]
        constructor
        · rintro (h | ⟨m, hm, he, hst⟩)
          · exact Or.inl h
          · exact Or.inr ⟨m, Or.inr hm, he, hst⟩
        · rintro (h | ⟨m, hm | hm, he, hst⟩)
          · exact Or.inl h
          · subst hm
            rw [hst] at hstale
            cases hstale
          · exact Or.inr ⟨m, hm, he, hst⟩
      · simp only [newsFilterStep, if_neg hmem, if_neg hstale, List.mem_cons,
          Finset.mem_insert]
        rw [Bool.not_eq_true] at hstale
        constructor
        · rintro ((h | h) | ⟨m, hm, he, hst⟩)
          · exact Or.inr ⟨n, Or.inl rfl, h.symm, hstale⟩
          · exact Or.inl h
          · exact Or.inr ⟨m, Or.inr hm, he, hst⟩
        · rintro (h | ⟨m, hm | hm, he, hst⟩)
          · exact Or.inl (Or.inr h)
          · subst hm
            exact Or.inl (Or.inl he.symm)
          · exact Or.inr ⟨m, hm, he, hst⟩

/-- C1 counterexample: with a 10-minute interval and cycle start 10000, an
item that is not yet seen but fails the freshness check (age 721 > 720) is
dropped WITHOUT its id being added to the seen set, contrary to the claim. -/
theorem stale_item_id_not_added :
    isStale 10 10000 ⟨"i", "t", some "u", "s", some 9279⟩ = true
    ∧ "i" ∉ (filterNews ∅ 10 10000 [⟨"i", "t", some "u", "s", some 9279⟩]).2 := by
  have hstale : isStale 10 10000 (⟨"i", "t", some "u", "s", some 9279⟩ : NewsItem) = true := by
    simp only [isStale, decide_eq_true_eq, gt_iff_lt]
    norm_num
  refine ⟨hstale, ?_⟩
  simp [filterNews, newsFilterStep, hstale]

/-- C1 amended: during a cycle's filter pass, the ids added to the seen set
are exactly those of processed items that pass the freshness check; an
unseen item failing the freshness check is NOT added (and is therefore
re-evaluated in later cycles). -/
theorem seen_after_filter_iff (seen : Finset String) (I : ℤ) (s : ℚ)
    (news : List NewsItem) (x : String) :
    x ∈ (filterNews seen I s news).2
      ↔ x ∈ seen ∨ ∃ n ∈ news, n.id = x ∧ isStale I s n = false :=
  mem_foldl_newsFilterStep I s x news ([], seen)

/-- Helper: every item reported by the filter loop was either already in the
report accumulator or had an id outside the accumulated seen set. -/
theorem fresh_foldl_mem (I : ℤ) (s : ℚ) :
    ∀ (news : List NewsItem) (acc : List NewsItem × Finset String) (m : NewsItem),
      m ∈ (news.foldl (newsFilterStep I s) acc).1 →
      m ∈ acc.1 ∨ m.id ∉ acc.2 := by
  intro news
  induction news with
  | nil => intro acc m h; exact Or.inl h
  | cons n rest ih =>
    intro acc m h
    rw [List.foldl_cons] at h
    rcases ih _ m h with h1 | h1
    · unfold newsFilterStep at h1
      by_cases hmem : n.id ∈ acc.2
      · rw [if_pos hmem] at h1
        exact Or.inl h1
      · by_cases hstale : isStale I s n
        · rw [if_neg hmem, if_pos hstale] at h1
          exact Or.inl h1
        · rw [if_neg hmem, if_neg hstale] at h1
          rcases List.mem_append.mp h1 with h2 | h2
          · exact Or.inl h2
          · rw [List.mem_singleton] at h2
            subst h2
            exact Or.inr hmem
    · right
      intro hc
      apply h1
      unfold newsFilterStep
      split_ifs <;> simp [hc]

/-- Helper: over the companies of one cycle, the seen set only grows and
every reported pair's id was outside the cycle's starting seen set. -/
theorem cycle_foldl_inv (fetch : String → Option (List NewsItem)) (I : ℤ) (s : ℚ) :
    ∀ (cs : List String) (acc : List (String × NewsItem) × Finset String),
      acc.2 ⊆ (cs.foldl (companyStep fetch I s) acc).2
      ∧ (∀ p ∈ (cs.foldl (companyStep fetch I s) acc).1,
          p ∈ acc.1 ∨ p.2.id ∉ acc.2) := by
  intro cs
  induction cs with
  | nil => intro acc; exact ⟨Finset.Subset.refl _, fun p hp => Or.inl hp⟩
  | cons c rest ih =>
    intro acc
    rw [List.foldl_cons]
    have hstep2 : acc.2 ⊆ (companyStep fetch I s acc c).2 := by
      cases hf : fetch c with
      | none => simp [companyStep, hf]
      | some news =>
        intro x hx
        simp only [companyStep, hf]
        exact (mem_foldl_newsFilterStep I s x news ([], acc.2)).mpr (Or.inl hx)
    constructor
    · exact hstep2.trans (ih _).1
    · intro p hp
      rcases (ih _).2 p hp with h1 | h1
      · cases hf : fetch c with
        | none =>
          rw [companyStep, hf] at h1
          exact Or.inl h1
        | some news =>
          rw [companyStep, hf] at h1
          rcases List.mem_append.mp h1 with h2 | h2
          · exact Or.inl h2
          · rcases List.mem_map.mp h2 with ⟨m, hm, hpm⟩
            rcases fresh_foldl_mem I s news ([], acc.2) m hm with h3 | h3
            · cases h3
            · right
              rw [← hpm]
              exact h3
      · right
        intro hc
        exact h1 (hstep2 hc)

/-- Helper: across consecutive cycles, the seen set only grows and every
cycle's report avoids every id seen before that run. -/
theorem cycles_foldl_inv :
    ∀ (inputs : List ((String → Option (List NewsItem)) × ℚ))
      (acc : List (List (String × NewsItem)) × ChatState),
      acc.2.news_seen_ids ⊆ (inputs.foldl cycleStep acc).2.news_seen_ids
      ∧ (∀ x ∈ acc.2.news_seen_ids, ∀ out ∈ (inputs.foldl cycleStep acc).1,
          out ∈ acc.1 ∨ ∀ p ∈ out, p.2.id ≠ x) := by
  intro inputs
  induction inputs with
  | nil => intro acc; exact ⟨Finset.Subset.refl _, fun x hx out hout => Or.inl hout⟩
  | cons inp rest ih =>
    intro acc
    rw [List.foldl_cons]
    have hcyc := cycle_foldl_inv inp.1 acc.2.interval_min inp.2
      (acc.2.companies.sort (· ≤ ·)) ([], acc.2.news_seen_ids)
    have hsub : acc.2.news_seen_ids ⊆ (cycleStep acc inp).2.news_seen_ids := by
      simpa [cycleStep, runNewsCycle] using hcyc.1
    constructor
    · exact hsub.trans (ih _).1
    · intro x hx out hout
      rcases (ih _).2 x (hsub hx) out hout with h1 | h1
      · rw [cycleStep] at h1
        rcases List.mem_append.mp h1 with h2 | h2
        · exact Or.inl h2
        · rw [List.mem_singleton] at h2
          subst h2
          right
          intro p hp hpx
          rcases hcyc.2 p (by simpa [runNewsCycle] using hp) with h3 | h3
          · cases h3
          · exact h3 (hpx ▸ hx)
      · exact Or.inr h1

/-- C4: across any run of monitor cycles, the seen set only ever grows (the
final seen set is a superset of the initial one), and an id that is in the
seen set at the start of the run is never among the reported items of any
cycle of the run. -/
theorem seen_monotone_no_rereport (st : ChatState)
    (inputs : List ((String → Option (List NewsItem)) × ℚ)) (x : String)
    (hx : x ∈ st.news_seen_ids) :
    st.news_seen_ids ⊆ (runCycles st inputs).2.news_seen_ids
    ∧ x ∉ reportedIds (runCycles st inputs).1 := by
  have h := cycles_foldl_inv inputs ([], st)
  refine ⟨h.1, ?_⟩
  intro hc
  rw [reportedIds] at hc
  rcases List.mem_map.mp hc with ⟨p, hp, hpx⟩
  rcases List.mem_flatten.mp hp with ⟨out, hout, hpo⟩
  rcases h.2 x hx out hout with h1 | h1
  · cases h1
  · exact h1 p hpo hpx

/-- Witness for C4: a subscriber that has already seen id "a" watches one
company; a cycle fetching items with ids "a" and "b" keeps the seen set a
superset and never re-reports "a". -/
theorem seen_monotone_no_rereport_witness :
    ("a" ∈ ({ ChatState.init with news_seen_ids := {"a"}, companies := {"c"} }
        : ChatState).news_seen_ids)
    ∧ (({ ChatState.init with news_seen_ids := {"a"}, companies := {"c"} }
          : ChatState).news_seen_ids
        ⊆ (runCycles { ChatState.init with news_seen_ids := {"a"}, companies := {"c"} }
            [(fun _ => some [⟨"a", "t", some "u", "s", none⟩,
              ⟨"b", "t", some "u", "s", none⟩], 100)]).2.news_seen_ids
      ∧ "a" ∉ reportedIds (runCycles
            { ChatState.init with news_seen_ids := {"a"}, companies := {"c"} }
            [(fun _ => some [⟨"a", "t", some "u", "s", none⟩,
              ⟨"b", "t", some "u", "s", none⟩], 100)]).1) :=
  ⟨by decide, seen_monotone_no_rereport _ _ "a" (by decide)⟩

/-- C10: removing an absent company or ticker leaves the whole subscriber
state unchanged; removing a present one changes only the corresponding
watch set (every other field is preserved). -/
theorem unwatch_frame (st : ChatState) (arg : String) :
    (pyStrip arg ∉ st.companies → unwatch_company st arg = st)
    ∧ (pyUpper (pyStrip arg) ∉ st.tickers → unwatch_ticker st arg = st)
    ∧ (pyStrip arg ∈ st.companies →
        (unwatch_company st arg).companies = st.companies.erase (pyStrip arg)
        ∧ (unwatch_company st arg).tickers = st.tickers
        ∧ (unwatch_company st arg).news_seen_ids = st.news_seen_ids
        ∧ (unwatch_company st arg).interval_min = st.interval_min
        ∧ (unwatch_company st arg).price_threshold_pct = st.price_threshold_pct
        ∧ (unwatch_company st arg).running = st.running
        ∧ (unwatch_company st arg).task = st.task
        ∧ (unwatch_company st arg).debug = st.debug)
    ∧ (pyUpper (pyStrip arg) ∈ st.tickers →
        (unwatch_ticker st arg).tickers = st.tickers.erase (pyUpper (pyStrip arg))
        ∧ (unwatch_ticker st arg).companies = st.companies
        ∧ (unwatch_ticker st arg).news_seen_ids = st.news_seen_ids
        ∧ (unwatch_ticker st arg).interval_min = st.interval_min
        ∧ (unwatch_ticker st arg).price_threshold_pct = st.price_threshold_pct
        ∧ (unwatch_ticker st arg).running = st.running
        ∧ (unwatch_ticker st arg).task = st.task
        ∧ (unwatch_ticker st arg).debug = st.debug) := by
  refine ⟨?_, ?_, ?_, ?_⟩ <;> intro h <;>
    simp [unwatch_company, unwatch_ticker, h]

/-- Witness for C10: a concrete subscriber watching "Acme" and "NVDA": a
missed removal is the identity, a present removal erases the target. -/
theorem unwatch_frame_witness :
    pyStrip "X" ∉ demoState.companies
    ∧ unwatch_company demoState "X" = demoState
    ∧ pyStrip " Acme " ∈ demoState.companies
    ∧ (unwatch_company demoState " Acme ").companies
      = demoState.companies.erase (pyStrip " Acme ")
    ∧ pyUpper (pyStrip "nvda") ∈ demoState.tickers
    ∧ (unwatch_ticker demoState "nvda").tickers
      = demoState.tickers.erase (pyUpper (pyStrip "nvda")) := by
  refine ⟨by decide, ?_, by decide, ?_, by decide, ?_⟩
  · exact (unwatch_frame demoState "X").1 (by decide)
  · exact ((unwatch_frame demoState " Acme ").2.2.1 (by decide)).1
  · exact ((unwatch_frame demoState "nvda").2.2.2 (by decide)).1

end Bot
